import Mathlib

/-!
Shallow embedding of the CalDAV MCP tool (files `caldav_tool/caldav_client.py`,
`caldav_tool/mcp_service.py`, `caldav_tool/schemas.py`).

The program is a thin client over an external CalDAV protocol library.  The
spec declares the wire protocol, the iCalendar parser and the `caldav`/`vobject`
libraries out of scope and describes each library invocation as "a single
remote call".  Accordingly the embedding models the remote server as explicit
state (a list of calendars, each holding a list of iCalendar event records),
and every library invocation as one `remoteCall` that increments a call
counter and may be forced to fail by a failure script carried in the state.
Python exceptions are modelled with `Except`; the client methods are direct
translations of the Python method bodies, with `try/except error.DAVError`
rendered as `catchDAV` and `except Exception` as `catchAll`.  Timestamps and
field values are opaque strings; `uuid.uuid4()` is modelled as a fresh-name
counter producing the (always non-empty) string `"uuid-" ++ n`, and
`datetime.utcnow()` reads a `now` component of the state.
-/

namespace Caldav

/-- An iCalendar content line of a VEVENT, as handled by the `vobject`
library: a field name and its value (values are opaque here). -/
structure VField where
  name : String
  value : String
deriving DecidableEq

/-- A VEVENT record: the ordered list of its content lines.  `vobject`
attribute access (`v_event.uid`) returns the first content line of that
name, and `v_event.add(k)` appends a new content line at the end. -/
structure VEvent where
  fields : List VField
deriving DecidableEq

/-- Python `hasattr(v_event, key)`: the record has a content line named `k`. -/
def VEvent.hasField (e : VEvent) (k : String) : Bool :=
  e.fields.any (fun f => f.name == k)

/-- Value of the first content line named `k`, if any
(`getattr(v_event, key).value`, `v_event.uid.value`, ...). -/
def VEvent.get? (e : VEvent) (k : String) : Option String :=
  (e.fields.find? (fun f => f.name == k)).map (fun f => f.value)

/-- Overwrite the value of the first content line named `k`
(`getattr(v_event, key).value = value`). -/
def VEvent.setFirst : List VField → String → String → List VField
  | [], _, _ => []
  | f :: fs, k, v =>
    if f.name == k then { name := f.name, value := v } :: fs
    else f :: VEvent.setFirst fs k v

/-- Record with the first `k` line's value overwritten by `v`. -/
def VEvent.overwriteFirst (e : VEvent) (k v : String) : VEvent :=
  ⟨VEvent.setFirst e.fields k v⟩

/-- Record with a new content line `k : v` appended
(`v_event.add(key).value = value`). -/
def VEvent.addField (e : VEvent) (k v : String) : VEvent :=
  ⟨e.fields ++ [⟨k, v⟩]⟩

/-- The field-patch loop of `CalDAVClient.update_event`
(caldav_client.py lines 165-169): for each `(key, value)` in order, overwrite
the field's value when the record already has the field, else append it. -/
def applyUpdates (e : VEvent) (upd : List (String × String)) : VEvent :=
  upd.foldl
    (fun acc kv =>
      if acc.hasField kv.1 then acc.overwriteFirst kv.1 kv.2
      else acc.addField kv.1 kv.2)
    e

/-- Server-side data of one calendar collection: identifier, the optional
displayname/description/url properties, and the stored event records. -/
structure CalData where
  id : String
  name : Option String
  description : Option String
  url : Option String
  events : List VEvent
deriving DecidableEq

/-- A `caldav.objects.Calendar` handle as seen by this client: `id` plus the
`name` / `description` / `url` attributes, each of which may be absent
(`getattr(calendar, attr, default)` in `_to_calendar_schema`). -/
structure CalendarHandle where
  id : String
  name : Option String
  description : Option String
  url : Option String
deriving DecidableEq

/-- Handle projection performed by the library when it returns a calendar. -/
def toHandle (c : CalData) : CalendarHandle :=
  ⟨c.id, c.name, c.description, c.url⟩

/-- A `caldav.objects.Event` handle: the calendar it lives in, its position
in that calendar (standing for the object's URL identity), and its embedded
parsed record (`event.vobject_instance.vevent`). -/
structure EventHandle where
  calId : String
  idx : Nat
  vevent : VEvent
deriving DecidableEq

/-- Exceptions crossing the embedded code.  The source raises Python
`ValueError` on bad constructor arguments, which the spec's taxonomy names
`ConfigurationError`; `ConnectionError` is raised by the constructor and by
`list_calendars`; `DAVError` / `NotFoundError` come from the protocol
library (`NotFoundError` is a subclass of `DAVError`); `AttributeError`
arises in `_to_event_schema` when a mandatory field is absent. -/
inductive Exc where
  | configurationError
  | connectionError
  | davError
  | notFoundError
  | attributeError
deriving DecidableEq

/-- World state threaded through the client: the server's calendars, a
failure script (`failures.head = true` forces the next remote call to raise
`DAVError`, an empty script means every call succeeds), the fresh-uuid
counter, the current clock reading, and a count of remote calls issued. -/
structure St where
  cals : List CalData
  failures : List Bool
  nextId : Nat
  now : String
  calls : Nat
deriving DecidableEq

/-- State-and-exception monad over `St`: Python state survives a raised
exception, so the state is returned in both outcomes. -/
def M (α : Type) : Type := St → Except Exc α × St

instance : Monad M where
  pure a := fun s => (Except.ok a, s)
  bind x f := fun s =>
    match x s with
    | (Except.ok a, s1) => f a s1
    | (Except.error e, s1) => (Except.error e, s1)

/-- Raise an exception. -/
def M.throw {α : Type} (e : Exc) : M α := fun s => (Except.error e, s)

/-- Python `try: x except error.DAVError: h` — catches `DAVError` and its
subclass `NotFoundError`, leaves other exceptions propagating. -/
def catchDAV {α : Type} (x h : M α) : M α := fun s =>
  match x s with
  | (Except.error Exc.davError, s1) => h s1
  | (Except.error Exc.notFoundError, s1) => h s1
  | r => r

/-- Python `try: x except Exception: h` in `update_event`. -/
def catchAll {α : Type} (x h : M α) : M α := fun s =>
  match x s with
  | (Except.error _, s1) => h s1
  | r => r

/-- One remote round trip to the server: counts the call, consumes the head
of the failure script, and either raises `DAVError` (simulated transport
failure) or performs the library action. -/
def remoteCall {α : Type} (act : St → Except Exc α × St) : M α := fun s =>
  let s1 : St := { s with calls := s.calls + 1 }
  match s1.failures with
  | true :: rest => (Except.error Exc.davError, { s1 with failures := rest })
  | false :: rest => act { s1 with failures := rest }
  | [] => act s1

/-- `str(uuid.uuid4())`: a fresh, never-empty identifier. Not a remote call. -/
def genUuid : M String := fun s =>
  (Except.ok ("uuid-" ++ toString s.nextId), { s with nextId := s.nextId + 1 })

/-- `datetime.utcnow()`. Not a remote call. -/
def utcNow : M String := fun s => (Except.ok s.now, s)

/-- Server-side lookup of a calendar collection by its identifier. -/
def findCal (cals : List CalData) (calId : String) : Option CalData :=
  cals.find? (fun c => c.id == calId)

/-- Rewrite the event list of the calendar(s) identified by `calId`. -/
def setEvents (cals : List CalData) (calId : String)
    (f : List VEvent → List VEvent) : List CalData :=
  cals.map (fun c => if c.id == calId then { c with events := f c.events } else c)

/-- `self.client.principal()`: the authentication handshake. -/
def lib_principal : M Unit := remoteCall fun s => (Except.ok (), s)

/-- `self.principal.calendars()`: handles of every calendar. -/
def lib_calendars : M (List CalendarHandle) := remoteCall fun s =>
  (Except.ok (s.cals.map toHandle), s)

/-- `self.principal.calendar(cal_id=...)`: handle of one calendar, raising
`NotFoundError` when no calendar has that identifier. -/
def lib_calendar (calId : String) : M CalendarHandle := remoteCall fun s =>
  match findCal s.cals calId with
  | some c => (Except.ok (toHandle c), s)
  | none => (Except.error Exc.notFoundError, s)

/-- `calendar.delete()`. -/
def lib_cal_delete (calId : String) : M Unit := remoteCall fun s =>
  (Except.ok (), { s with cals := s.cals.filter (fun c => c.id != calId) })

/-- `calendar.save_event(ical)`: store a new event record in the calendar and
return its handle. -/
def lib_save_event (calId : String) (ve : VEvent) : M EventHandle :=
  remoteCall fun s =>
    match findCal s.cals calId with
    | some c =>
      (Except.ok ⟨calId, c.events.length, ve⟩,
       { s with cals := setEvents s.cals calId (fun evs => evs ++ [ve]) })
    | none => (Except.error Exc.davError, s)

/-- Exact-UID predicate used by `calendar.event_by_uid(uid=...)`. -/
def uidMatches (uid : String) (e : VEvent) : Bool :=
  e.get? "uid" == some uid

/-- `calendar.event_by_uid(uid=...)`: first event of the calendar whose `uid`
field equals `uid`, raising `NotFoundError` when there is none. -/
def lib_event_by_uid (calId uid : String) : M EventHandle := remoteCall fun s =>
  match findCal s.cals calId with
  | some c =>
    match c.events.findIdx? (uidMatches uid) with
    | some i => (Except.ok ⟨calId, i, c.events.getD i ⟨[]⟩⟩, s)
    | none => (Except.error Exc.notFoundError, s)
  | none => (Except.error Exc.davError, s)

/-- `event.save()`: write the handle's (possibly mutated) record back over
the stored event it came from. -/
def lib_event_save (h : EventHandle) : M Unit := remoteCall fun s =>
  match findCal s.cals h.calId with
  | some _ =>
    (Except.ok (),
     { s with cals := setEvents s.cals h.calId (fun evs => evs.set h.idx h.vevent) })
  | none => (Except.error Exc.davError, s)

namespace CalDAVClient

/-- `CalDAVClient.__init__` (caldav_client.py lines 21-29): reject any empty
credential component before touching the network, then perform the eager
authentication handshake, converting a `DAVError` into `ConnectionError`. -/
def construct (url username password : String) : M Unit :=
  if url = "" ∨ username = "" ∨ password = "" then
    M.throw Exc.configurationError
  else
    catchDAV lib_principal (M.throw Exc.connectionError)

/-- `CalDAVClient.list_calendars` (lines 31-39): a `DAVError` is re-raised
as `ConnectionError`, never swallowed. -/
def list_calendars : M (List CalendarHandle) :=
  catchDAV lib_calendars (M.throw Exc.connectionError)

/-- `CalDAVClient.get_calendar` (lines 56-68): empty id short-circuits to
`None`; `NotFoundError` and any other `DAVError` both collapse to `None`. -/
def get_calendar (calendar_id : String) : M (Option CalendarHandle) :=
  if calendar_id = "" then pure none
  else
    catchDAV
      (do
        let c ← lib_calendar calendar_id
        pure (some c))
      (pure none)

/-- `CalDAVClient.delete_calendar` (lines 85-95): re-fetch, then delete;
every failure becomes `False`. -/
def delete_calendar (calendar_id : String) : M Bool := do
  let cal? ← get_calendar calendar_id
  match cal? with
  | none => pure false
  | some cal =>
    catchDAV
      (do
        lib_cal_delete cal.id
        pure true)
      (pure false)

/-- The VEVENT record assembled by `CalDAVClient.create_event`
(lines 116-124): uid, dtstamp, dtstart, dtend, summary in that order, and a
description line only when the argument is truthy (neither `None` nor `""`). -/
def newRecord (uid stamp summ startT endT : String)
    (descr : Option String) : VEvent :=
  ⟨[⟨"uid", uid⟩, ⟨"dtstamp", stamp⟩, ⟨"dtstart", startT⟩,
    ⟨"dtend", endT⟩, ⟨"summary", summ⟩] ++
   (match descr with
    | some d => if d = "" then [] else [⟨"description", d⟩]
    | none => [])⟩

/-- `CalDAVClient.create_event` (lines 108-130): fetch the calendar, then
reject a missing calendar or empty summary, then build the record and save
it, collapsing a save failure to `None`.  The Python default for
`description` is `""`. -/
def create_event (calendar_id summ startT endT : String)
    (descr : Option String := some "") : M (Option EventHandle) := do
  let cal? ← get_calendar calendar_id
  match cal? with
  | none => pure none
  | some cal =>
    if summ = "" then pure none
    else do
      let uid ← genUuid
      let stamp ← utcNow
      catchDAV
        (do
          let ev ← lib_save_event cal.id (newRecord uid stamp summ startT endT descr)
          pure (some ev))
        (pure none)

/-- `CalDAVClient.get_event` (lines 132-144): fetch the calendar, then reject
a missing calendar or empty uid, then look the event up by exact UID,
collapsing `NotFoundError` and `DAVError` to `None`. -/
def get_event (calendar_id event_uid : String) : M (Option EventHandle) := do
  let cal? ← get_calendar calendar_id
  match cal? with
  | none => pure none
  | some cal =>
    if event_uid = "" then pure none
    else
      catchDAV
        (do
          let ev ← lib_event_by_uid cal.id event_uid
          pure (some ev))
        (pure none)

/-- `CalDAVClient.update_event` (lines 158-175): fetch the event, apply the
field patches with `applyUpdates`, save the whole record back and return the
updated handle; `except Exception` collapses every failure to `None`. -/
def update_event (calendar_id event_uid : String)
    (updates : List (String × String)) : M (Option EventHandle) := do
  let ev? ← get_event calendar_id event_uid
  match ev? with
  | none => pure none
  | some ev =>
    catchAll
      (do
        let h : EventHandle := { ev with vevent := applyUpdates ev.vevent updates }
        lib_event_save h
        pure (some h))
      (pure none)

end CalDAVClient

/-- `schemas.CalendarSchema`: pydantic model with `description: Optional[str]`. -/
structure CalendarSchema where
  id : String
  name : String
  description : Option String
  url : String
deriving DecidableEq

/-- `schemas.EventSchema`: pydantic model with `description: Optional[str]`. -/
structure EventSchema where
  id : String
  summary : String
  start_time : String
  end_time : String
  description : Option String
deriving DecidableEq

/-- `CalDAVTool._to_calendar_schema` (mcp_service.py lines 29-36):
`name` defaults to `str(getattr(calendar, 'url', ''))` when the `name`
attribute is absent; `description` defaults to `''`; `url` defaults to `''`. -/
def toCalendarSchema (c : CalendarHandle) : CalendarSchema :=
  { id := c.id
    name := c.name.getD (c.url.getD "")
    description := some (c.description.getD "")
    url := c.url.getD "" }

/-- `CalDAVTool._to_event_schema` (mcp_service.py lines 38-49): reads
`uid`, `summary`, `dtstart`, `dtend` from the embedded record — an absent one
raises `AttributeError` — and maps an absent `description` line to `None`. -/
def toEventSchema (e : EventHandle) : Except Exc EventSchema :=
  match e.vevent.get? "uid", e.vevent.get? "summary",
        e.vevent.get? "dtstart", e.vevent.get? "dtend" with
  | some u, some sm, some a, some b =>
    Except.ok
      { id := u, summary := sm, start_time := a, end_time := b,
        description := e.vevent.get? "description" }
  | _, _, _, _ => Except.error Exc.attributeError

namespace CalDAVTool

/-- `CalDAVTool.create_event` (mcp_service.py lines 129-145): call the client
and convert the returned handle, passing `None` through. -/
def create_event (calendar_id summ startT endT : String)
    (descr : Option String := some "") : M (Option EventSchema) := do
  let ev? ← CalDAVClient.create_event calendar_id summ startT endT descr
  match ev? with
  | none => pure none
  | some ev =>
    match toEventSchema ev with
    | Except.ok sch => pure (some sch)
    | Except.error e => M.throw e

/-- `CalDAVTool.get_event` (mcp_service.py lines 147-159). -/
def get_event (calendar_id event_uid : String) : M (Option EventSchema) := do
  let ev? ← CalDAVClient.get_event calendar_id event_uid
  match ev? with
  | none => pure none
  | some ev =>
    match toEventSchema ev with
    | Except.ok sch => pure (some sch)
    | Except.error e => M.throw e

end CalDAVTool

/-- A concrete stored event record, used to instantiate the theorems below. -/
def sampleEvent : VEvent :=
  ⟨[⟨"uid", "u1"⟩, ⟨"dtstamp", "20250101T000000Z"⟩, ⟨"dtstart", "a"⟩,
    ⟨"dtend", "b"⟩, ⟨"summary", "old"⟩]⟩

/-- A concrete server-side calendar holding `sampleEvent`. -/
def sampleCal : CalData :=
  ⟨"c1", some "Team", none, some "http://srv/c1", [sampleEvent]⟩

/-- A concrete world state with one calendar and an all-success transport. -/
def sampleSt : St := ⟨[sampleCal], [], 0, "20250102T000000Z", 0⟩

/-- `sampleSt` with the next remote call forced to fail. -/
def sampleStFail : St := ⟨[sampleCal], [true], 0, "20250102T000000Z", 0⟩

/-- `sampleSt` with the second remote call forced to fail. -/
def sampleStFail2 : St := ⟨[sampleCal], [false, true], 0, "20250102T000000Z", 0⟩

/-- A calendar handle whose `name` attribute is absent. -/
def sampleHandle : CalendarHandle := ⟨"c1", none, some "d", some "http://srv/c1"⟩

/-! Unfolding lemmas for the monad and small supporting facts. -/

@[simp] theorem bind_apply {α β : Type} (x : M α) (f : α → M β) (s : St) :
    (x >>= f) s =
      match x s with
      | (Except.ok a, s1) => f a s1
      | (Except.error e, s1) => (Except.error e, s1) := rfl

@[simp] theorem pure_apply {α : Type} (a : α) (s : St) :
    (pure a : M α) s = (Except.ok a, s) := rfl

@[simp] theorem throw_apply {α : Type} (e : Exc) (s : St) :
    (M.throw e : M α) s = (Except.error e, s) := rfl

theorem findCal_id_eq {cals : List CalData} {calId : String} {c : CalData}
    (h : findCal cals calId = some c) : c.id = calId := by
  have := List.find?_some h
  exact eq_of_beq this

theorem findCal_setEvents (cals : List CalData) (calId : String)
    (f : List VEvent → List VEvent) :
    findCal (setEvents cals calId f) calId =
      (findCal cals calId).map (fun c => { c with events := f c.events }) := by
  induction cals with
  | nil => rfl
  | cons c rest ih =>
    cases hc : (c.id == calId) with
    | true =>
      simp only [setEvents, List.map_cons, findCal, List.find?_cons, hc, if_pos]
      simp [hc]
    | false =>
      simp only [setEvents, List.map_cons, findCal, List.find?_cons, hc, if_neg]
      simpa [hc, setEvents, findCal] using ih

theorem findIdx_set_self {α : Type} [Inhabited α] (p : α → Bool) :
    ∀ (l : List α) (i : Nat) (x : α), List.findIdx p l = i → i < l.length →
      p x = true → List.findIdx p (l.set i x) = i := by
  intro l
  induction l with
  | nil => intro i x _ hlt _; exact absurd hlt (by simp)
  | cons a as ih =>
    intro i x hfi hlt hx
    cases ha : p a with
    | true =>
      have h0 : List.findIdx p (a :: as) = 0 := by simp [List.findIdx_cons, ha]
      rw [h0] at hfi
      subst hfi
      simp [List.set, List.findIdx_cons, hx]
    | false =>
      have h1 : List.findIdx p (a :: as) = List.findIdx p as + 1 := by
        simp [List.findIdx_cons, ha]
      rw [h1] at hfi
      cases i with
      | zero => exact absurd hfi (by omega)
      | succ j =>
        have hj : List.findIdx p as = j := by omega
        have hjlt : j < as.length := by
          simp only [List.length_cons] at hlt; omega
        simp [List.set, List.findIdx_cons, ha, ih j x hj hjlt hx]

theorem findIdx_getD_true {α : Type} (p : α → Bool) :
    ∀ (l : List α) (i : Nat) (d : α), List.findIdx p l = i → i < l.length →
      p (l.getD i d) = true := by
  intro l
  induction l with
  | nil => intro i d _ hlt; exact absurd hlt (by simp)
  | cons a as ih =>
    intro i d hfi hlt
    cases ha : p a with
    | true =>
      have h0 : List.findIdx p (a :: as) = 0 := by simp [List.findIdx_cons, ha]
      rw [h0] at hfi
      subst hfi
      simpa using ha
    | false =>
      have h1 : List.findIdx p (a :: as) = List.findIdx p as + 1 := by
        simp [List.findIdx_cons, ha]
      rw [h1] at hfi
      cases i with
      | zero => exact absurd hfi (by omega)
      | succ j =>
        have hj : List.findIdx p as = j := by omega
        have hjlt : j < as.length := by
          simp only [List.length_cons] at hlt; omega
        simpa [List.getD] using ih j d hj hjlt

theorem findIdx?_lt {α : Type} {p : α → Bool} {l : List α} {i : Nat}
    (h : List.findIdx? p l = some i) : i < l.length :=
  (List.findIdx?_eq_some_iff_findIdx_eq.mp h).1

theorem findIdx?_set_self {α : Type} {p : α → Bool} {l : List α} {i : Nat} {x : α}
    (h : List.findIdx? p l = some i) (hx : p x = true) :
    List.findIdx? p (l.set i x) = some i := by
  obtain ⟨hlt, hfi⟩ := List.findIdx?_eq_some_iff_findIdx_eq.mp h
  refine List.findIdx?_eq_some_iff_findIdx_eq.mpr ⟨by simpa using hlt, ?_⟩
  have : Inhabited α := ⟨x⟩
  exact findIdx_set_self p l i x hfi hlt hx

theorem findIdx?_getD_true {α : Type} {p : α → Bool} {l : List α} {i : Nat} {d : α}
    (h : List.findIdx? p l = some i) : p (l.getD i d) = true := by
  obtain ⟨hlt, hfi⟩ := List.findIdx?_eq_some_iff_findIdx_eq.mp h
  exact findIdx_getD_true p l i d hfi hlt

theorem getD_set_self {α : Type} {l : List α} {i : Nat} {x d : α}
    (h : i < l.length) : (l.set i x).getD i d = x := by
  rw [List.getD_eq_getElem?_getD, List.getElem?_set_self h]
  rfl

/-! Facts about VEVENT field access and the field-patch primitives. -/

theorem get?_eq_none_of_hasField_false {e : VEvent} {k : String}
    (h : e.hasField k = false) : e.get? k = none := by
  unfold VEvent.hasField at h
  unfold VEvent.get?
  rw [List.find?_eq_none.mpr]
  · rfl
  · intro f hf
    rw [List.any_eq_false] at h
    exact h f hf

theorem get?_setFirst_self : ∀ (fs : List VField) (k v : String),
    (fs.any (fun f => f.name == k)) = true →
    (VEvent.mk (VEvent.setFirst fs k v)).get? k = some v := by
  intro fs
  induction fs with
  | nil => intro k v h; simp at h
  | cons f rest ih =>
    intro k v h
    cases hf : (f.name == k) with
    | true =>
      simp [VEvent.setFirst, hf, VEvent.get?, List.find?_cons]
    | false =>
      have hrest : (rest.any (fun f => f.name == k)) = true := by
        simpa [hf] using h
      have := ih k v hrest
      simpa [VEvent.setFirst, hf, VEvent.get?, List.find?_cons] using this

theorem get?_setFirst_ne : ∀ (fs : List VField) (k v k' : String), k' ≠ k →
    (VEvent.mk (VEvent.setFirst fs k v)).get? k' = (VEvent.mk fs).get? k' := by
  intro fs
  induction fs with
  | nil => intro k v k' _; rfl
  | cons f rest ih =>
    intro k v k' hk
    cases hf : (f.name == k) with
    | true =>
      have hname : f.name = k := eq_of_beq hf
      have hne : (f.name == k') = false := by
        rw [hname]
        exact beq_eq_false_iff_ne.mpr (fun h => hk h.symm)
      simp [VEvent.setFirst, hf, VEvent.get?, List.find?_cons, hne]
    | false =>
      have := ih k v k' hk
      simp only [VEvent.get?] at this ⊢
      cases hf' : (f.name == k') with
      | true => simp [VEvent.setFirst, hf, List.find?_cons, hf']
      | false => simpa [VEvent.setFirst, hf, List.find?_cons, hf'] using this

theorem filter_setFirst : ∀ (fs : List VField) (k v : String),
    (VEvent.setFirst fs k v).filter (fun f => f.name != k) =
      fs.filter (fun f => f.name != k) := by
  intro fs
  induction fs with
  | nil => intro k v; rfl
  | cons f rest ih =>
    intro k v
    cases hf : (f.name == k) with
    | true =>
      simp [VEvent.setFirst, hf, List.filter_cons, bne, hf]
    | false =>
      simp only [VEvent.setFirst, hf, Bool.false_eq_true, if_false, List.filter_cons]
      have := ih k v
      simp only [bne] at this ⊢
      rw [this]

theorem length_setFirst : ∀ (fs : List VField) (k v : String),
    (VEvent.setFirst fs k v).length = fs.length := by
  intro fs
  induction fs with
  | nil => intro k v; rfl
  | cons f rest ih =>
    intro k v
    cases hf : (f.name == k) with
    | true => simp [VEvent.setFirst, hf]
    | false => simp [VEvent.setFirst, hf, ih k v]

theorem applyUpdates_nil (e : VEvent) : applyUpdates e [] = e := rfl

theorem applyUpdates_cons (e : VEvent) (kv : String × String)
    (rest : List (String × String)) :
    applyUpdates e (kv :: rest) =
      applyUpdates
        (if e.hasField kv.1 then e.overwriteFirst kv.1 kv.2
         else e.addField kv.1 kv.2)
        rest := rfl

theorem applyUpdates_single (e : VEvent) (k v : String) :
    applyUpdates e [(k, v)] =
      if e.hasField k then e.overwriteFirst k v else e.addField k v := rfl

theorem get?_addField_self {e : VEvent} {k : String} (v : String)
    (h : e.hasField k = false) : (e.addField k v).get? k = some v := by
  unfold VEvent.addField VEvent.get?
  rw [List.find?_append, List.find?_eq_none.mpr, Option.none_or]
  · simp
  · intro f hf
    rw [VEvent.hasField, List.any_eq_false] at h
    exact h f hf

theorem get?_addField_ne {e : VEvent} {k v k' : String} (hk : k' ≠ k) :
    (e.addField k v).get? k' = e.get? k' := by
  unfold VEvent.addField VEvent.get?
  rw [List.find?_append]
  have : List.find? (fun f => f.name == k') [(⟨k, v⟩ : VField)] = none := by
    simp [List.find?_cons, beq_eq_false_iff_ne.mpr (fun h => hk h.symm)]
  rw [this]
  cases List.find? (fun f => f.name == k') e.fields <;> rfl

theorem filter_addField {e : VEvent} {k v : String} :
    (e.addField k v).fields.filter (fun f => f.name != k) =
      e.fields.filter (fun f => f.name != k) := by
  unfold VEvent.addField
  simp [List.filter_append, List.filter_cons]

/-! Behaviour of one remote call under the three shapes of the failure
script, and derived characterizations of the client operations. -/

theorem remoteCall_nil {α : Type} {act : St → Except Exc α × St} {s : St}
    (hf : s.failures = []) :
    remoteCall act s = act { s with calls := s.calls + 1 } := by
  simp [remoteCall, hf]

theorem remoteCall_false {α : Type} {act : St → Except Exc α × St} {s : St}
    {rest : List Bool} (hf : s.failures = false :: rest) :
    remoteCall act s = act { s with calls := s.calls + 1, failures := rest } := by
  simp [remoteCall, hf]

theorem remoteCall_true {α : Type} {act : St → Except Exc α × St} {s : St}
    {rest : List Bool} (hf : s.failures = true :: rest) :
    remoteCall act s =
      (Except.error Exc.davError,
       { s with calls := s.calls + 1, failures := rest }) := by
  simp [remoteCall, hf]

theorem remoteCall_apply {α : Type} (act : St → Except Exc α × St) (s : St) :
    remoteCall act s =
      match s.failures with
      | true :: rest =>
        (Except.error Exc.davError,
         { s with calls := s.calls + 1, failures := rest })
      | false :: rest => act { s with calls := s.calls + 1, failures := rest }
      | [] => act { s with calls := s.calls + 1 } := by
  cases s with
  | mk cals failures nextId now calls =>
    cases failures with
    | nil => rfl
    | cons b rest => cases b <;> rfl

theorem get_calendar_empty (s : St) :
    CalDAVClient.get_calendar "" s = (Except.ok none, s) := rfl

theorem get_calendar_ok {s : St} {calId : String} {c : CalData}
    (hid : calId ≠ "") (hf : s.failures = []) (hc : findCal s.cals calId = some c) :
    CalDAVClient.get_calendar calId s =
      (Except.ok (some (toHandle c)), { s with calls := s.calls + 1 }) := by
  unfold CalDAVClient.get_calendar
  rw [if_neg hid]
  simp only [catchDAV, bind_apply, lib_calendar, remoteCall_nil hf, hc, pure_apply]

theorem get_calendar_ok_false {s : St} {calId : String} {c : CalData} {rest : List Bool}
    (hid : calId ≠ "") (hf : s.failures = false :: rest)
    (hc : findCal s.cals calId = some c) :
    CalDAVClient.get_calendar calId s =
      (Except.ok (some (toHandle c)),
       { s with calls := s.calls + 1, failures := rest }) := by
  unfold CalDAVClient.get_calendar
  rw [if_neg hid]
  simp only [catchDAV, bind_apply, lib_calendar, remoteCall_false hf, hc, pure_apply]

theorem get_calendar_fail {s : St} {calId : String} {rest : List Bool}
    (hid : calId ≠ "") (hf : s.failures = true :: rest) :
    CalDAVClient.get_calendar calId s =
      (Except.ok none, { s with calls := s.calls + 1, failures := rest }) := by
  unfold CalDAVClient.get_calendar
  rw [if_neg hid]
  simp only [catchDAV, bind_apply, lib_calendar, remoteCall_true hf, pure_apply]

theorem get_calendar_shape (s : St) (calId : String) (hid : calId ≠ "") :
    ∃ (o : Option CalendarHandle) (rest : List Bool),
      CalDAVClient.get_calendar calId s =
        (Except.ok o, { s with calls := s.calls + 1, failures := rest }) := by
  unfold CalDAVClient.get_calendar
  rw [if_neg hid]
  cases hfl : s.failures with
  | nil =>
    cases hc : findCal s.cals calId with
    | none =>
      refine ⟨none, [], ?_⟩
      simp [catchDAV, lib_calendar, remoteCall_nil hfl, hc, ← hfl]
    | some c =>
      refine ⟨some (toHandle c), [], ?_⟩
      simp [catchDAV, lib_calendar, remoteCall_nil hfl, hc, ← hfl]
  | cons b rest =>
    cases b with
    | false =>
      cases hc : findCal s.cals calId with
      | none =>
        refine ⟨none, rest, ?_⟩
        simp [catchDAV, lib_calendar, remoteCall_false hfl, hc]
      | some c =>
        refine ⟨some (toHandle c), rest, ?_⟩
        simp [catchDAV, lib_calendar, remoteCall_false hfl, hc]
    | true =>
      refine ⟨none, rest, ?_⟩
      simp [catchDAV, lib_calendar, remoteCall_true hfl]

/-! Fields of the record assembled by `create_event`. -/

theorem newRecord_get?_uid (u st sm a b : String) (d : Option String) :
    (CalDAVClient.newRecord u st sm a b d).get? "uid" = some u := rfl

theorem newRecord_get?_summary (u st sm a b : String) (d : Option String) :
    (CalDAVClient.newRecord u st sm a b d).get? "summary" = some sm := rfl

theorem newRecord_get?_dtstart (u st sm a b : String) (d : Option String) :
    (CalDAVClient.newRecord u st sm a b d).get? "dtstart" = some a := rfl

theorem newRecord_get?_dtend (u st sm a b : String) (d : Option String) :
    (CalDAVClient.newRecord u st sm a b d).get? "dtend" = some b := rfl

theorem newRecord_get?_descr_none (u st sm a b : String) :
    (CalDAVClient.newRecord u st sm a b none).get? "description" = none := rfl

theorem newRecord_get?_descr_empty (u st sm a b : String) :
    (CalDAVClient.newRecord u st sm a b (some "")).get? "description" = none := rfl

theorem newRecord_get?_descr_some (u st sm a b d : String) (hd : d ≠ "") :
    (CalDAVClient.newRecord u st sm a b (some d)).get? "description" = some d := by
  simp [CalDAVClient.newRecord, VEvent.get?, List.find?_append, List.find?_cons, hd]

theorem newRecord_hasField_descr_none (u st sm a b : String) :
    (CalDAVClient.newRecord u st sm a b none).hasField "description" = false := rfl

theorem newRecord_hasField_descr_empty (u st sm a b : String) :
    (CalDAVClient.newRecord u st sm a b (some "")).hasField "description" = false := rfl

theorem uidMatches_newRecord (u st sm a b : String) (d : Option String) :
    uidMatches u (CalDAVClient.newRecord u st sm a b d) = true := by
  simp [uidMatches, newRecord_get?_uid]

theorem toEventSchema_newRecord (calId : String) (i : Nat)
    (u st sm a b : String) (d : Option String) :
    toEventSchema ⟨calId, i, CalDAVClient.newRecord u st sm a b d⟩ =
      Except.ok
        { id := u, summary := sm, start_time := a, end_time := b,
          description := (CalDAVClient.newRecord u st sm a b d).get? "description" } := by
  simp only [toEventSchema, newRecord_get?_uid, newRecord_get?_summary,
    newRecord_get?_dtstart, newRecord_get?_dtend]

/-! Success-path characterizations of the event operations. -/

theorem create_event_ok {s : St} {calId summ t0 t1 : String} {descr : Option String}
    {c : CalData}
    (hid : calId ≠ "") (hsum : summ ≠ "") (hf : s.failures = [])
    (hc : findCal s.cals calId = some c) :
    CalDAVClient.create_event calId summ t0 t1 descr s =
      (Except.ok (some ⟨calId, c.events.length,
          CalDAVClient.newRecord ("uuid-" ++ toString s.nextId) s.now summ t0 t1 descr⟩),
       { s with
           cals := setEvents s.cals calId (fun evs =>
             evs ++ [CalDAVClient.newRecord ("uuid-" ++ toString s.nextId) s.now summ t0 t1 descr]),
           nextId := s.nextId + 1,
           calls := s.calls + 2 }) := by
  have hcid : c.id = calId := findCal_id_eq hc
  unfold CalDAVClient.create_event
  simp only [bind_apply, get_calendar_ok hid hf hc]
  rw [if_neg hsum]
  simp only [bind_apply, genUuid, utcNow, catchDAV, lib_save_event, toHandle, hcid,
    remoteCall_nil, hf, hc, pure_apply]

theorem get_event_ok {s : St} {calId uid : String} {c : CalData} {i : Nat}
    (hid : calId ≠ "") (huid : uid ≠ "") (hf : s.failures = [])
    (hc : findCal s.cals calId = some c)
    (hidx : c.events.findIdx? (uidMatches uid) = some i) :
    CalDAVClient.get_event calId uid s =
      (Except.ok (some ⟨calId, i, c.events.getD i ⟨[]⟩⟩),
       { s with calls := s.calls + 2 }) := by
  have hcid : c.id = calId := findCal_id_eq hc
  unfold CalDAVClient.get_event
  simp only [bind_apply, get_calendar_ok hid hf hc]
  rw [if_neg huid]
  simp only [catchDAV, bind_apply, lib_event_by_uid, toHandle, hcid,
    remoteCall_nil, hf, hc, hidx, pure_apply]

theorem get_event_ok_ff {s : St} {calId uid : String} {c : CalData} {i : Nat}
    {rest : List Bool}
    (hid : calId ≠ "") (huid : uid ≠ "") (hfl : s.failures = false :: false :: rest)
    (hc : findCal s.cals calId = some c)
    (hidx : c.events.findIdx? (uidMatches uid) = some i) :
    CalDAVClient.get_event calId uid s =
      (Except.ok (some ⟨calId, i, c.events.getD i ⟨[]⟩⟩),
       { s with calls := s.calls + 2, failures := rest }) := by
  have hcid : c.id = calId := findCal_id_eq hc
  unfold CalDAVClient.get_event
  simp only [bind_apply, get_calendar_ok_false hid hfl hc]
  rw [if_neg huid]
  simp only [catchDAV, bind_apply, lib_event_by_uid, toHandle, hcid,
    remoteCall_apply, hc, hidx, pure_apply]

theorem update_event_ok {s : St} {calId uid : String}
    {upd : List (String × String)} {c : CalData} {i : Nat}
    (hid : calId ≠ "") (huid : uid ≠ "") (hf : s.failures = [])
    (hc : findCal s.cals calId = some c)
    (hidx : c.events.findIdx? (uidMatches uid) = some i) :
    CalDAVClient.update_event calId uid upd s =
      (Except.ok (some ⟨calId, i, applyUpdates (c.events.getD i ⟨[]⟩) upd⟩),
       { s with
           cals := setEvents s.cals calId
             (fun evs => evs.set i (applyUpdates (c.events.getD i ⟨[]⟩) upd)),
           calls := s.calls + 3 }) := by
  unfold CalDAVClient.update_event
  simp only [bind_apply, get_event_ok hid huid hf hc hidx]
  simp only [catchAll, bind_apply, lib_event_save, remoteCall_nil, hf, hc, pure_apply]

theorem update_event_save_fail {s : St} {calId uid : String}
    {upd : List (String × String)} {c : CalData} {i : Nat} {rest : List Bool}
    (hid : calId ≠ "") (huid : uid ≠ "")
    (hfl : s.failures = false :: false :: true :: rest)
    (hc : findCal s.cals calId = some c)
    (hidx : c.events.findIdx? (uidMatches uid) = some i) :
    (CalDAVClient.update_event calId uid upd s).1 = Except.ok none := by
  unfold CalDAVClient.update_event
  simp only [bind_apply, get_event_ok_ff hid huid hfl hc hidx]
  simp only [catchAll, bind_apply, lib_event_save, remoteCall_apply, hc, pure_apply]

theorem get?_applyUpdates_single_self (e : VEvent) (k v : String) :
    (applyUpdates e [(k, v)]).get? k = some v := by
  rw [applyUpdates_single]
  cases h : e.hasField k with
  | true =>
    rw [if_pos rfl]
    exact get?_setFirst_self e.fields k v h
  | false =>
    simp only [Bool.false_eq_true, if_false]
    exact get?_addField_self v h

theorem get?_applyUpdates_single_ne {e : VEvent} {k v k' : String} (hk : k' ≠ k) :
    (applyUpdates e [(k, v)]).get? k' = e.get? k' := by
  rw [applyUpdates_single]
  cases h : e.hasField k with
  | true =>
    rw [if_pos rfl]
    exact get?_setFirst_ne e.fields k v k' hk
  | false =>
    simp only [Bool.false_eq_true, if_false]
    exact get?_addField_ne hk

theorem filter_applyUpdates_single (e : VEvent) (k v : String) :
    (applyUpdates e [(k, v)]).fields.filter (fun f => f.name != k) =
      e.fields.filter (fun f => f.name != k) := by
  rw [applyUpdates_single]
  cases h : e.hasField k with
  | true =>
    rw [if_pos rfl]
    exact filter_setFirst e.fields k v
  | false =>
    simp only [Bool.false_eq_true, if_false]
    exact filter_addField

theorem getD_concat_len {α : Type} (l : List α) (x d : α) :
    (l ++ [x]).getD l.length d = x := by
  rw [List.getD_eq_getElem?_getD, List.getElem?_concat_length]
  rfl

theorem uuid_ne_empty (n : Nat) : ("uuid-" ++ toString n) ≠ "" := by
  intro h
  have hlen := congrArg String.length h
  rw [String.length_append] at hlen
  have h5 : ("uuid-" : String).length = 5 := rfl
  have h0 : ("" : String).length = 0 := rfl
  omega

theorem create_then_get {s : St} {calId summ t0 t1 : String} {descr : Option String}
    {c : CalData}
    (hid : calId ≠ "") (hsum : summ ≠ "") (hf : s.failures = [])
    (hc : findCal s.cals calId = some c)
    (hfresh : c.events.findIdx? (uidMatches ("uuid-" ++ toString s.nextId)) = none) :
    CalDAVTool.create_event calId summ t0 t1 descr s =
      (Except.ok (some
        { id := "uuid-" ++ toString s.nextId, summary := summ,
          start_time := t0, end_time := t1,
          description :=
            (CalDAVClient.newRecord ("uuid-" ++ toString s.nextId)
              s.now summ t0 t1 descr).get? "description" }),
       { s with
           cals := setEvents s.cals calId (fun evs =>
             evs ++ [CalDAVClient.newRecord ("uuid-" ++ toString s.nextId)
               s.now summ t0 t1 descr]),
           nextId := s.nextId + 1, calls := s.calls + 2 })
    ∧ CalDAVTool.get_event calId ("uuid-" ++ toString s.nextId)
        { s with
            cals := setEvents s.cals calId (fun evs =>
              evs ++ [CalDAVClient.newRecord ("uuid-" ++ toString s.nextId)
                s.now summ t0 t1 descr]),
            nextId := s.nextId + 1, calls := s.calls + 2 } =
      (Except.ok (some
        { id := "uuid-" ++ toString s.nextId, summary := summ,
          start_time := t0, end_time := t1,
          description :=
            (CalDAVClient.newRecord ("uuid-" ++ toString s.nextId)
              s.now summ t0 t1 descr).get? "description" }),
       { s with
           cals := setEvents s.cals calId (fun evs =>
             evs ++ [CalDAVClient.newRecord ("uuid-" ++ toString s.nextId)
               s.now summ t0 t1 descr]),
           nextId := s.nextId + 1, calls := s.calls + 2 + 2 }) := by
  refine ⟨?_, ?_⟩
  · simp only [CalDAVTool.create_event, bind_apply, create_event_ok hid hsum hf hc,
      toEventSchema_newRecord, pure_apply]
  · have hc2 : findCal
        (setEvents s.cals calId (fun evs =>
          evs ++ [CalDAVClient.newRecord ("uuid-" ++ toString s.nextId)
            s.now summ t0 t1 descr])) calId =
        some { c with events := c.events ++
          [CalDAVClient.newRecord ("uuid-" ++ toString s.nextId)
            s.now summ t0 t1 descr] } := by
      rw [findCal_setEvents, hc]
      rfl
    have hidx2 : (c.events ++
        [CalDAVClient.newRecord ("uuid-" ++ toString s.nextId)
          s.now summ t0 t1 descr]).findIdx?
          (uidMatches ("uuid-" ++ toString s.nextId)) = some c.events.length := by
      rw [List.findIdx?_append, hfresh]
      simp [List.findIdx?_cons, uidMatches_newRecord]
    have hgev := get_event_ok
      (s := { s with
          cals := setEvents s.cals calId (fun evs =>
            evs ++ [CalDAVClient.newRecord ("uuid-" ++ toString s.nextId)
              s.now summ t0 t1 descr]),
          nextId := s.nextId + 1, calls := s.calls + 2 })
      hid (uuid_ne_empty s.nextId) hf hc2 hidx2
    dsimp only at hgev
    rw [getD_concat_len] at hgev
    simp only [CalDAVTool.get_event, bind_apply, hgev, toEventSchema_newRecord,
      pure_apply]

/-! The claims. -/

/-- C5: constructing the Connection Layer client with any empty component of
(url, username, password) fails with the configuration error (the source's
`ValueError`, named `ConfigurationError` by the spec) and returns the state
unchanged — in particular the remote-call counter is untouched, so no session
construction or authentication handshake was attempted. -/
theorem C5_construct_empty_credentials (url username password : String) (s : St)
    (h : url = "" ∨ username = "" ∨ password = "") :
    CalDAVClient.construct url username password s =
      (Except.error Exc.configurationError, s) := by
  unfold CalDAVClient.construct
  rw [if_pos h]
  rfl

/-- Witness for C5 at a concrete input: empty url, all-success transport. -/
theorem C5_witness :
    CalDAVClient.construct "" "user" "pw" sampleSt =
      (Except.error Exc.configurationError, sampleSt) :=
  C5_construct_empty_credentials "" "user" "pw" sampleSt (Or.inl rfl)

/-- C4: a transport failure of the next underlying library call makes
`list_calendars` throw the connection error, while the same failure makes
`get_calendar` return `none` and `delete_calendar` return `false` without
throwing; a failure of `delete_calendar`'s second remote call (the delete
itself, after a successful re-fetch) also yields `false`. -/
theorem C4_transport_failure_taxonomy (s : St) (rest : List Bool) (calId : String)
    (hfl : s.failures = true :: rest) (hid : calId ≠ "") :
    (CalDAVClient.list_calendars s).1 = Except.error Exc.connectionError
    ∧ (CalDAVClient.get_calendar calId s).1 = Except.ok none
    ∧ (CalDAVClient.delete_calendar calId s).1 = Except.ok false
    ∧ (∀ (s2 : St) (rest2 : List Bool), s2.failures = false :: true :: rest2 →
        (CalDAVClient.delete_calendar calId s2).1 = Except.ok false) := by
  refine ⟨?_, ?_, ?_, ?_⟩
  · simp only [CalDAVClient.list_calendars, catchDAV, lib_calendars,
      remoteCall_true hfl, throw_apply]
  · rw [get_calendar_fail hid hfl]
  · unfold CalDAVClient.delete_calendar
    simp only [bind_apply, get_calendar_fail hid hfl, pure_apply]
  · intro s2 rest2 hfl2
    unfold CalDAVClient.delete_calendar
    cases hc : findCal s2.cals calId with
    | none =>
      simp only [bind_apply, CalDAVClient.get_calendar, if_neg hid, catchDAV,
        lib_calendar, remoteCall_apply, hfl2, hc, pure_apply]
    | some c =>
      simp only [bind_apply, get_calendar_ok_false hid hfl2 hc, catchDAV,
        lib_cal_delete, remoteCall_apply, pure_apply]

/-- Witness for C4 at concrete states: first-call failure for all three
operations, and second-call failure for the delete. -/
theorem C4_witness :
    (CalDAVClient.list_calendars sampleStFail).1 = Except.error Exc.connectionError
    ∧ (CalDAVClient.get_calendar "c1" sampleStFail).1 = Except.ok none
    ∧ (CalDAVClient.delete_calendar "c1" sampleStFail).1 = Except.ok false
    ∧ (CalDAVClient.delete_calendar "c1" sampleStFail2).1 = Except.ok false :=
  have h := C4_transport_failure_taxonomy sampleStFail [] "c1" rfl (by decide)
  ⟨h.1, h.2.1, h.2.2.1, h.2.2.2 sampleStFail2 [] rfl⟩

/-- C3 counterexample: on a handle whose `name` attribute is absent but whose
`url` attribute is present, the calendar mapper does not substitute the empty
string for the missing name — it substitutes the url string. -/
theorem C3_counterexample :
    sampleHandle.name = none
    ∧ (toCalendarSchema sampleHandle).name = "http://srv/c1"
    ∧ ¬ ((toCalendarSchema sampleHandle).name = "") := by
  refine ⟨rfl, rfl, ?_⟩
  decide

/-- C3 amended: `toCalendarSchema` maps id/name/description/url; a missing
description or url is replaced by the empty string, but a missing name is
replaced by the string form of the url attribute (which is the empty string
only when the url attribute is missing as well). -/
theorem C3_toCalendarSchema_mapping (c : CalendarHandle) :
    (toCalendarSchema c).id = c.id
    ∧ (∀ n, c.name = some n → (toCalendarSchema c).name = n)
    ∧ (∀ d, c.description = some d → (toCalendarSchema c).description = some d)
    ∧ (∀ u, c.url = some u → (toCalendarSchema c).url = u)
    ∧ (c.description = none → (toCalendarSchema c).description = some "")
    ∧ (c.url = none → (toCalendarSchema c).url = "")
    ∧ (c.name = none → (toCalendarSchema c).name = c.url.getD "") := by
  refine ⟨rfl, ?_, ?_, ?_, ?_, ?_, ?_⟩
  · intro n hn; simp [toCalendarSchema, hn]
  · intro d hd; simp [toCalendarSchema, hd]
  · intro u hu; simp [toCalendarSchema, hu]
  · intro hd; simp [toCalendarSchema, hd]
  · intro hu; simp [toCalendarSchema, hu]
  · intro hn; simp [toCalendarSchema, hn]

/-- Witness for C3 at a concrete handle with name present and description and
url both absent. -/
theorem C3_witness :
    (toCalendarSchema ⟨"c2", some "N", none, none⟩).id = "c2"
    ∧ (toCalendarSchema ⟨"c2", some "N", none, none⟩).name = "N"
    ∧ (toCalendarSchema ⟨"c2", some "N", none, none⟩).description = some ""
    ∧ (toCalendarSchema ⟨"c2", some "N", none, none⟩).url = "" :=
  have h := C3_toCalendarSchema_mapping ⟨"c2", some "N", none, none⟩
  ⟨h.1, h.2.1 "N" rfl, h.2.2.2.2.1 rfl, h.2.2.2.2.2.1 rfl⟩

/-- C9: `toEventSchema` extracts UID, summary, start and end from the
handle's embedded record and passes the optional description through; when
the record has no description field the schema's description is `none` —
unlike `toCalendarSchema`, which substitutes `""` for a missing description. -/
theorem C9_toEventSchema_mapping (e : EventHandle) (sch : EventSchema)
    (h : toEventSchema e = Except.ok sch) :
    some sch.id = e.vevent.get? "uid"
    ∧ some sch.summary = e.vevent.get? "summary"
    ∧ some sch.start_time = e.vevent.get? "dtstart"
    ∧ some sch.end_time = e.vevent.get? "dtend"
    ∧ sch.description = e.vevent.get? "description"
    ∧ (e.vevent.hasField "description" = false → sch.description = none)
    ∧ (∀ c : CalendarHandle, c.description = none →
        (toCalendarSchema c).description = some "") := by
  unfold toEventSchema at h
  split at h
  case _ u sm a b hu hsm ha hb =>
    injection h with h'
    subst h'
    refine ⟨hu.symm, hsm.symm, ha.symm, hb.symm, rfl, ?_, ?_⟩
    · intro hno
      exact get?_eq_none_of_hasField_false hno
    · intro c hc
      simp [toCalendarSchema, hc]
  case _ =>
    exact absurd h (by simp)

/-- Witness for C9 at a concrete handle without a description field. -/
theorem C9_witness :
    some (EventSchema.id ⟨"u1", "old", "a", "b", none⟩) = sampleEvent.get? "uid"
    ∧ (⟨"u1", "old", "a", "b", none⟩ : EventSchema).description = none :=
  have h := C9_toEventSchema_mapping ⟨"c1", 0, sampleEvent⟩
    ⟨"u1", "old", "a", "b", none⟩ rfl
  ⟨h.1, h.2.2.2.2.2.1 (by decide)⟩

/-- C1 counterexample: with an existing (hence non-empty) calendar id,
`create_event` with an empty summary does return `none` — but the remote-call
counter moves, because the calendar fetch is issued before the summary check. -/
theorem C1_counterexample :
    (CalDAVClient.create_event "c1" "" "a" "b" (some "") sampleSt).1 = Except.ok none
    ∧ ¬ ((CalDAVClient.create_event "c1" "" "a" "b" (some "") sampleSt).2.calls
          = sampleSt.calls) := by
  refine ⟨rfl, ?_⟩
  decide

/-- C1 amended: `create_event` with an empty summary always returns `none`
and never saves an event, but the calendar fetch precedes the summary check:
with an empty calendar id no remote call is issued, and with a non-empty
calendar id exactly one remote call (the calendar fetch) is issued. -/
theorem C1_createEvent_empty_summary (calId t0 t1 : String)
    (descr : Option String) (s : St) :
    (CalDAVClient.create_event calId "" t0 t1 descr s).1 = Except.ok none
    ∧ (calId = "" →
        CalDAVClient.create_event calId "" t0 t1 descr s = (Except.ok none, s))
    ∧ (calId ≠ "" →
        (CalDAVClient.create_event calId "" t0 t1 descr s).2.calls = s.calls + 1) := by
  by_cases hid : calId = ""
  · subst hid
    exact ⟨rfl, fun _ => rfl, fun h => absurd rfl h⟩
  · obtain ⟨o, rest, hshape⟩ := get_calendar_shape s calId hid
    refine ⟨?_, fun h => absurd h hid, fun _ => ?_⟩
    · unfold CalDAVClient.create_event
      simp only [bind_apply, hshape]
      cases o with
      | none => rfl
      | some cal => rfl
    · unfold CalDAVClient.create_event
      simp only [bind_apply, hshape]
      cases o with
      | none => rfl
      | some cal => rfl

/-- Witness for C1 amended at a concrete state with one calendar. -/
theorem C1_witness :
    (CalDAVClient.create_event "c1" "" "a" "b" (some "") sampleSt).1 = Except.ok none
    ∧ (CalDAVClient.create_event "c1" "" "a" "b" (some "") sampleSt).2.calls
        = sampleSt.calls + 1 :=
  ⟨(C1_createEvent_empty_summary "c1" "a" "b" (some "") sampleSt).1,
   (C1_createEvent_empty_summary "c1" "a" "b" (some "") sampleSt).2.2 (by decide)⟩

/-- C2 counterexample: `get_event` with an empty uid and an existing
(non-empty) calendar id returns `none`, but the remote-call counter moves —
the calendar is fetched before the empty-uid check. -/
theorem C2_counterexample :
    (CalDAVClient.get_event "c1" "" sampleSt).1 = Except.ok none
    ∧ ¬ ((CalDAVClient.get_event "c1" "" sampleSt).2.calls = sampleSt.calls) := by
  refine ⟨rfl, ?_⟩
  decide

/-- C2 amended: `get_calendar ""` returns `none` with the state untouched
(no remote call), and `get_event` with an empty uid returns `none` — with no
remote call when the calendar id is also empty, but with exactly one remote
call (the calendar fetch) when the calendar id is non-empty. -/
theorem C2_empty_id_short_circuits (s : St) (calId : String) :
    CalDAVClient.get_calendar "" s = (Except.ok none, s)
    ∧ (CalDAVClient.get_event calId "" s).1 = Except.ok none
    ∧ (calId = "" → CalDAVClient.get_event calId "" s = (Except.ok none, s))
    ∧ (calId ≠ "" → (CalDAVClient.get_event calId "" s).2.calls = s.calls + 1) := by
  refine ⟨get_calendar_empty s, ?_⟩
  by_cases hid : calId = ""
  · subst hid
    exact ⟨rfl, fun _ => rfl, fun h => absurd rfl h⟩
  · obtain ⟨o, rest, hshape⟩ := get_calendar_shape s calId hid
    refine ⟨?_, fun h => absurd h hid, fun _ => ?_⟩
    · unfold CalDAVClient.get_event
      simp only [bind_apply, hshape]
      cases o with
      | none => rfl
      | some cal => rfl
    · unfold CalDAVClient.get_event
      simp only [bind_apply, hshape]
      cases o with
      | none => rfl
      | some cal => rfl

/-- Witness for C2 amended at a concrete state with one calendar. -/
theorem C2_witness :
    CalDAVClient.get_calendar "" sampleSt = (Except.ok none, sampleSt)
    ∧ (CalDAVClient.get_event "c1" "" sampleSt).1 = Except.ok none
    ∧ (CalDAVClient.get_event "c1" "" sampleSt).2.calls = sampleSt.calls + 1 :=
  ⟨(C2_empty_id_short_circuits sampleSt "c1").1,
   (C2_empty_id_short_circuits sampleSt "c1").2.1,
   (C2_empty_id_short_circuits sampleSt "c1").2.2.2 (by decide)⟩

/-- C6: `update_event` looks the event up by (calendar id, uid), applies each
field update in order to the embedded record — overwriting the field's value
when the record already has the field and appending a new field otherwise —
saves the whole record back over the stored event, and returns the updated
handle; a not-found lookup or a save failure is folded into `none`. -/
theorem C6_updateEvent_patch_semantics :
    (∀ (s : St) (calId uid : String) (upd : List (String × String))
       (c : CalData) (i : Nat),
       s.failures = [] → calId ≠ "" → uid ≠ "" →
       findCal s.cals calId = some c →
       c.events.findIdx? (uidMatches uid) = some i →
       CalDAVClient.update_event calId uid upd s =
         (Except.ok (some ⟨calId, i, applyUpdates (c.events.getD i ⟨[]⟩) upd⟩),
          { s with
              cals := setEvents s.cals calId
                (fun evs => evs.set i (applyUpdates (c.events.getD i ⟨[]⟩) upd)),
              calls := s.calls + 3 }))
    ∧ (∀ (e : VEvent) (k v : String), e.hasField k = true →
         (applyUpdates e [(k, v)]).get? k = some v
         ∧ (applyUpdates e [(k, v)]).fields.filter (fun f => f.name != k) =
             e.fields.filter (fun f => f.name != k)
         ∧ (applyUpdates e [(k, v)]).fields.length = e.fields.length)
    ∧ (∀ (e : VEvent) (k v : String), e.hasField k = false →
         (applyUpdates e [(k, v)]).fields = e.fields ++ [⟨k, v⟩])
    ∧ (∀ (e : VEvent) (kv : String × String) (rest : List (String × String)),
         applyUpdates e (kv :: rest) = applyUpdates (applyUpdates e [kv]) rest)
    ∧ (∀ (s s1 : St) (calId uid : String) (upd : List (String × String)),
         CalDAVClient.get_event calId uid s = (Except.ok none, s1) →
         CalDAVClient.update_event calId uid upd s = (Except.ok none, s1))
    ∧ (∀ (s : St) (rest : List Bool) (calId uid : String)
         (upd : List (String × String)) (c : CalData) (i : Nat),
         s.failures = false :: false :: true :: rest → calId ≠ "" → uid ≠ "" →
         findCal s.cals calId = some c →
         c.events.findIdx? (uidMatches uid) = some i →
         (CalDAVClient.update_event calId uid upd s).1 = Except.ok none) := by
  refine ⟨?_, ?_, ?_, ?_, ?_, ?_⟩
  · intro s calId uid upd c i hf hid huid hc hidx
    exact update_event_ok hid huid hf hc hidx
  · intro e k v h
    rw [applyUpdates_single, if_pos h]
    exact ⟨get?_setFirst_self e.fields k v h, filter_setFirst e.fields k v,
      length_setFirst e.fields k v⟩
  · intro e k v h
    rw [applyUpdates_single, if_neg (by simp [h])]
    rfl
  · intro e kv rest
    rfl
  · intro s s1 calId uid upd hget
    unfold CalDAVClient.update_event
    simp only [bind_apply, hget, pure_apply]
  · intro s rest calId uid upd c i hfl hid huid hc hidx
    exact update_event_save_fail hid huid hfl hc hidx

/-- Witness for C6's success path at a concrete state: overwriting the
existing summary field of the stored event. -/
theorem C6_witness :
    CalDAVClient.update_event "c1" "u1" [("summary", "REN")] sampleSt =
      (Except.ok (some ⟨"c1", 0, applyUpdates sampleEvent [("summary", "REN")]⟩),
       { sampleSt with
           cals := setEvents sampleSt.cals "c1"
             (fun evs => evs.set 0 (applyUpdates sampleEvent [("summary", "REN")])),
           calls := sampleSt.calls + 3 }) :=
  C6_updateEvent_patch_semantics.1 sampleSt "c1" "u1" [("summary", "REN")]
    sampleCal 0 rfl (by decide) (by decide) rfl (by decide)

/-- C7: after a successful `update_event` that patches only the summary, a
subsequent `get_event` by the same (calendar id, uid) returns the updated
record: its summary is the new value, while its uid and every other field
(name, order and multiplicity of all non-summary fields) are unchanged. -/
theorem C7_update_summary_frame (s : St) (calId uid snew : String)
    (c : CalData) (i : Nat)
    (hf : s.failures = []) (hid : calId ≠ "") (huid : uid ≠ "")
    (hc : findCal s.cals calId = some c)
    (hidx : c.events.findIdx? (uidMatches uid) = some i) :
    CalDAVClient.update_event calId uid [("summary", snew)] s =
      (Except.ok (some ⟨calId, i,
         applyUpdates (c.events.getD i ⟨[]⟩) [("summary", snew)]⟩),
       { s with
           cals := setEvents s.cals calId (fun evs =>
             evs.set i (applyUpdates (c.events.getD i ⟨[]⟩) [("summary", snew)])),
           calls := s.calls + 3 })
    ∧ (CalDAVClient.get_event calId uid
         { s with
             cals := setEvents s.cals calId (fun evs =>
               evs.set i (applyUpdates (c.events.getD i ⟨[]⟩) [("summary", snew)])),
             calls := s.calls + 3 }).1 =
        Except.ok (some ⟨calId, i,
          applyUpdates (c.events.getD i ⟨[]⟩) [("summary", snew)]⟩)
    ∧ (applyUpdates (c.events.getD i ⟨[]⟩) [("summary", snew)]).get? "summary" =
        some snew
    ∧ (applyUpdates (c.events.getD i ⟨[]⟩) [("summary", snew)]).get? "uid" =
        (c.events.getD i ⟨[]⟩).get? "uid"
    ∧ (applyUpdates (c.events.getD i ⟨[]⟩) [("summary", snew)]).fields.filter
        (fun f => f.name != "summary") =
        (c.events.getD i ⟨[]⟩).fields.filter (fun f => f.name != "summary") := by
  have hupd := @update_event_ok s calId uid [("summary", snew)] c i
    hid huid hf hc hidx
  have huidpres : (applyUpdates (c.events.getD i ⟨[]⟩)
      [("summary", snew)]).get? "uid" = (c.events.getD i ⟨[]⟩).get? "uid" :=
    get?_applyUpdates_single_ne (by decide)
  have hm : uidMatches uid (c.events.getD i ⟨[]⟩) = true :=
    findIdx?_getD_true hidx
  have hm' : uidMatches uid
      (applyUpdates (c.events.getD i ⟨[]⟩) [("summary", snew)]) = true := by
    unfold uidMatches at hm ⊢
    rw [huidpres]
    exact hm
  have hc2 : findCal (setEvents s.cals calId (fun evs =>
      evs.set i (applyUpdates (c.events.getD i ⟨[]⟩) [("summary", snew)]))) calId =
      some { c with events :=
        c.events.set i (applyUpdates (c.events.getD i ⟨[]⟩) [("summary", snew)]) } := by
    rw [findCal_setEvents, hc]
    rfl
  have hidx2 : (c.events.set i (applyUpdates (c.events.getD i ⟨[]⟩)
      [("summary", snew)])).findIdx? (uidMatches uid) = some i :=
    findIdx?_set_self hidx hm'
  have hget := get_event_ok
    (s := { s with
        cals := setEvents s.cals calId (fun evs =>
          evs.set i (applyUpdates (c.events.getD i ⟨[]⟩) [("summary", snew)])),
        calls := s.calls + 3 })
    hid huid hf hc2 hidx2
  dsimp only at hget
  rw [getD_set_self (findIdx?_lt hidx)] at hget
  exact ⟨hupd, by rw [hget], get?_applyUpdates_single_self _ _ _, huidpres,
    filter_applyUpdates_single _ _ _⟩

/-- Witness for C7 at a concrete state: renaming the stored event's summary
leaves its uid and all non-summary fields unchanged. -/
theorem C7_witness :
    (applyUpdates sampleEvent [("summary", "REN")]).get? "summary" = some "REN"
    ∧ (applyUpdates sampleEvent [("summary", "REN")]).get? "uid" =
        sampleEvent.get? "uid"
    ∧ (applyUpdates sampleEvent [("summary", "REN")]).fields.filter
        (fun f => f.name != "summary") =
        sampleEvent.fields.filter (fun f => f.name != "summary") :=
  have h := C7_update_summary_frame sampleSt "c1" "u1" "REN" sampleCal 0
    rfl (by decide) (by decide) rfl (by decide)
  ⟨h.2.2.1, h.2.2.2.1, h.2.2.2.2⟩

/-- C8: a successful `create_event` on an existing calendar with a non-empty
summary, followed by `get_event` with the returned event's id, yields a
schema whose summary, start and end equal the created values and whose id is
the freshly generated, non-empty uid. -/
theorem C8_create_get_roundtrip (s : St) (calId summ t0 t1 : String)
    (descr : Option String) (c : CalData)
    (hf : s.failures = []) (hid : calId ≠ "") (hsum : summ ≠ "")
    (hc : findCal s.cals calId = some c)
    (hfresh : c.events.findIdx? (uidMatches ("uuid-" ++ toString s.nextId)) = none) :
    (CalDAVTool.create_event calId summ t0 t1 descr s).1 =
      Except.ok (some
        { id := "uuid-" ++ toString s.nextId, summary := summ,
          start_time := t0, end_time := t1,
          description :=
            (CalDAVClient.newRecord ("uuid-" ++ toString s.nextId)
              s.now summ t0 t1 descr).get? "description" })
    ∧ (CalDAVTool.get_event calId ("uuid-" ++ toString s.nextId)
        (CalDAVTool.create_event calId summ t0 t1 descr s).2).1 =
      Except.ok (some
        { id := "uuid-" ++ toString s.nextId, summary := summ,
          start_time := t0, end_time := t1,
          description :=
            (CalDAVClient.newRecord ("uuid-" ++ toString s.nextId)
              s.now summ t0 t1 descr).get? "description" })
    ∧ ("uuid-" ++ toString s.nextId) ≠ "" := by
  have h := @create_then_get s calId summ t0 t1 descr c hid hsum hf hc hfresh
  exact ⟨by rw [h.1], by simp only [h.1, h.2], uuid_ne_empty s.nextId⟩

/-- Witness for C8 at a concrete state: an event created with summary "S"
and a description is read back with identical fields and a non-empty id. -/
theorem C8_witness :
    (CalDAVTool.create_event "c1" "S" "a" "b" (some "D") sampleSt).1 =
      Except.ok (some ⟨"uuid-0", "S", "a", "b", some "D"⟩)
    ∧ (CalDAVTool.get_event "c1" "uuid-0"
        (CalDAVTool.create_event "c1" "S" "a" "b" (some "D") sampleSt).2).1 =
      Except.ok (some ⟨"uuid-0", "S", "a", "b", some "D"⟩)
    ∧ ("uuid-0" : String) ≠ "" :=
  have h := C8_create_get_roundtrip sampleSt "c1" "S" "a" "b" (some "D")
    sampleCal rfl (by decide) (by decide) rfl (by decide)
  ⟨h.1, h.2.1, h.2.2⟩

/-- C10: a `create_event` description argument of `none` and of `""` are
indistinguishable — the client functions are equal on them; in both cases
the saved record carries no description field at all, so reading the event
back yields a schema whose description is `none`. -/
theorem C10_empty_description_indistinguishable :
    (∀ (calId summ t0 t1 : String) (s : St),
       CalDAVClient.create_event calId summ t0 t1 none s =
         CalDAVClient.create_event calId summ t0 t1 (some "") s)
    ∧ (∀ (u st sm a b : String),
         (CalDAVClient.newRecord u st sm a b none).hasField "description" = false
         ∧ (CalDAVClient.newRecord u st sm a b (some "")).hasField "description"
             = false)
    ∧ (∀ (s : St) (calId summ t0 t1 : String) (descr : Option String) (c : CalData),
         s.failures = [] → calId ≠ "" → summ ≠ "" →
         findCal s.cals calId = some c →
         c.events.findIdx? (uidMatches ("uuid-" ++ toString s.nextId)) = none →
         (descr = none ∨ descr = some "") →
         (CalDAVTool.create_event calId summ t0 t1 descr s).1 =
           Except.ok (some
             { id := "uuid-" ++ toString s.nextId, summary := summ,
               start_time := t0, end_time := t1, description := none })
         ∧ (CalDAVTool.get_event calId ("uuid-" ++ toString s.nextId)
             (CalDAVTool.create_event calId summ t0 t1 descr s).2).1 =
           Except.ok (some
             { id := "uuid-" ++ toString s.nextId, summary := summ,
               start_time := t0, end_time := t1, description := none })) := by
  refine ⟨?_, ?_, ?_⟩
  · intro calId summ t0 t1 s
    rfl
  · intro u st sm a b
    exact ⟨rfl, rfl⟩
  · intro s calId summ t0 t1 descr c hf hid hsum hc hfresh hdesc
    rcases hdesc with h0 | h0
    · subst h0
      have h := @create_then_get s calId summ t0 t1 none c hid hsum hf hc hfresh
      rw [newRecord_get?_descr_none] at h
      exact ⟨by rw [h.1], by simp only [h.1, h.2]⟩
    · subst h0
      have h := @create_then_get s calId summ t0 t1 (some "") c hid hsum hf hc hfresh
      rw [newRecord_get?_descr_empty] at h
      exact ⟨by rw [h.1], by simp only [h.1, h.2]⟩

/-- Witness for C10 at a concrete state: creating with an empty-string
description stores no description field, and reading back yields `none`. -/
theorem C10_witness :
    (CalDAVTool.create_event "c1" "S" "a" "b" (some "") sampleSt).1 =
      Except.ok (some ⟨"uuid-0", "S", "a", "b", none⟩)
    ∧ (CalDAVTool.get_event "c1" "uuid-0"
        (CalDAVTool.create_event "c1" "S" "a" "b" (some "") sampleSt).2).1 =
      Except.ok (some ⟨"uuid-0", "S", "a", "b", none⟩) :=
  have h := C10_empty_description_indistinguishable.2.2 sampleSt "c1" "S" "a" "b"
    (some "") sampleCal rfl (by decide) (by decide) rfl (by decide) (Or.inr rfl)
  ⟨h.1, h.2⟩

end Caldav
